import Mathlib

/-!
Verification of the `structurs-derive` procedural macro
(`src/structurs-derive/src/lib.rs`).

The development has two layers:

* a shallow embedding of the generation algorithm itself
  (`Padding.parse`, `Attributes.new`, `array_type`, `get_func`,
  `get_body`, the per-field body construction of `derive_macro`), which
  operates on a model of the token trees and types the macro inspects and
  produces a small AST (`Gen`) whose constructors correspond one-to-one to
  the `quote!` templates of the source; and

* an interpreter for that generated code against a byte stream.  The
  stream operations and the primitive/composite codec contracts live in
  the `structurs` core crate and the standard library, which are not part
  of `src/`; those parts are modelled from the spec and marked as such in
  their doc comments.

Panics of the macro (generation-time configuration errors) are modelled
with `Except String`.
-/

namespace Structurs

/-- Literals inside attribute token streams (`syn::Lit`, reduced to the
distinction the macro makes: integer literal versus any other literal). -/
inductive Lit where
  | int (n : Nat)
  | other (descr : String)
deriving DecidableEq

/-- Model of `proc_macro2::TokenTree`: identifiers, punctuation, literals
and parenthesized groups (a group carries its inner token stream). -/
inductive TokenTree where
  | ident (s : String)
  | punct (c : Char)
  | literal (l : Lit)
  | group (stream : List TokenTree)

/-- `Padding` attribute value (source lines 35-39): `Normal` is the
automatically sized padding, `Bytes n` an explicit byte count. -/
inductive Padding where
  | normal
  | bytes (n : Nat)
deriving DecidableEq

/-- Model of `Padding::parse` (source lines 43-66).  The token stream of
the attribute is inspected: only when its first token tree is a group is
the group's content parsed, expecting `bytes`, `=`, and an integer
literal in sequence (tokens after the literal are never looked at); each
deviation inside the group panics with a message naming the expected and
the found token.  When the first token tree is not a group (including an
empty token stream) the default `Padding::Normal` is returned. -/
def Padding.parse (tokens : List TokenTree) : Except String Padding :=
  match tokens with
  | TokenTree.group g :: _ =>
    (match g with
     | TokenTree.ident i :: g1 =>
       if i = "bytes" then
         match g1 with
         | TokenTree.punct p :: g2 =>
           if p = '=' then
             match g2 with
             | TokenTree.literal (Lit.int n) :: _ => Except.ok (Padding.bytes n)
             | TokenTree.literal (Lit.other d) :: _ =>
                 Except.error ("expected literal was of type integer, but found: " ++ d)
             | _ :: _ => Except.error "expected a literal, but found: a non-literal token"
             | [] => Except.error "expected a literal, but found: None"
           else Except.error "expected punct was =, but found: another punct"
         | _ :: _ => Except.error "expected punct was =, but found: a non-punct token"
         | [] => Except.error "expected punct was =, but found: None"
       else Except.error ("expected ident was bytes, but found: " ++ i)
     | _ :: _ => Except.error "expected ident was bytes, but found: a non-ident token"
     | [] => Except.error "expected ident was bytes, but found: None")
  | _ => Except.ok Padding.normal

/-- `Endian` attribute value (source lines 18-24); `normal` is the
source's `Endian::Normal`, the default meaning "use the value type's own
`structurs::Read`/`Write` contract". -/
inductive Endian where
  | little
  | big
  | native
  | normal
deriving DecidableEq

/-- One `syn::Attribute` as the macro consumes it: the segments of its
path and its trailing token stream. -/
structure Attr where
  pathSegments : List String
  tokens : List TokenTree

/-- The resolved attribute set of one field (source lines 77-82). -/
structure Attributes where
  endian : Endian := Endian.normal
  padding : Option Padding := none

/-- Effect of one path segment on the accumulated attributes: the body of
the inner loop of `Attributes::new` (source lines 90-100). -/
def applySegment (a : Attributes) (attr : Attr) (seg : String) : Except String Attributes :=
  if seg = "le" then Except.ok { a with endian := Endian.little }
  else if seg = "be" then Except.ok { a with endian := Endian.big }
  else if seg = "ne" then Except.ok { a with endian := Endian.native }
  else if seg = "pad" then
    match Padding.parse attr.tokens with
    | Except.error e => Except.error e
    | Except.ok p => Except.ok { a with padding := some p }
  else Except.ok a

/-- Inner loop of `Attributes::new` over the segments of one attribute's
path. -/
def applySegments (a : Attributes) (attr : Attr) : List String → Except String Attributes
  | [] => Except.ok a
  | seg :: rest =>
    match applySegment a attr seg with
    | Except.error e => Except.error e
    | Except.ok a1 => applySegments a1 attr rest

/-- Outer loop of `Attributes::new` over the field's attributes. -/
def applyAttrs (a : Attributes) : List Attr → Except String Attributes
  | [] => Except.ok a
  | attr :: rest =>
    match applySegments a attr attr.pathSegments with
    | Except.error e => Except.error e
    | Except.ok a1 => applyAttrs a1 rest

/-- Model of `Attributes::new` (source lines 86-103): starting from the
default attribute set, every attribute's path segments are scanned in
order and each recognised directive unconditionally overwrites the
accumulated state. -/
def Attributes.new (attrs : List Attr) : Except String Attributes :=
  applyAttrs {} attrs

/-- Length expression of a fixed-size array type (`syn::Expr` in array
length position, reduced to the distinction `array_type` makes): an
integer literal, or any other constant expression kept symbolic. -/
inductive LenExpr where
  | litInt (n : Nat)
  | constE (name : String)
deriving DecidableEq

/-- Model of `syn::Type` as far as the macro inspects it: a fixed-size
array type, or a non-array type.  A non-array type carries its name and
its byte size; the size models `::std::mem::size_of` for the integer
primitive types the `structurs` codec contract covers. -/
inductive RType where
  | prim (name : String) (size : Nat)
  | array (elem : RType) (len : LenExpr)
deriving DecidableEq

/-- `ArrayLength` (source lines 106-110). -/
inductive ArrayLength where
  | int (n : Nat)
  | const (name : String)
deriving DecidableEq

/-- Model of `array_type` (source lines 251-269): an array type yields
its element type together with its length, classified as a literal
integer or as a retained constant expression; any other type yields
`None`. -/
def array_type : RType → Option (RType × ArrayLength)
  | RType.array elem len =>
    some (elem,
      match len with
      | LenExpr.litInt n => ArrayLength.int n
      | LenExpr.constE c => ArrayLength.const c)
  | RType.prim _ _ => none

/-- A type occurrence inside the generated token stream.  `spliced t`
is a `quote!` interpolation `#elem_ty`, which substitutes the actual
type.  `dollarElemTy` models the token sequence produced by the source's
line 168, which writes `$elem_ty` instead of `#elem_ty`: `quote!` only
interpolates `#`-prefixed variables, so the tokens `$ elem_ty` are
emitted verbatim into the generated code (where they are not a type). -/
inductive TyRef where
  | spliced (t : RType)
  | dollarElemTy
deriving DecidableEq

/-- The `elements_token` interpolated into a padding buffer length
(source lines 156-159): a literal repeat count or a symbolic constant
expression. -/
inductive ElemsTok where
  | lit (n : Nat)
  | constE (name : String)
deriving DecidableEq

/-- Length expression of a generated `[0u8; _]` filler buffer: either a
literal byte count (`Padding::Bytes`) or
`::std::mem::size_of::<ty>() * elements` (`Padding::Normal`). -/
inductive CountExpr where
  | lit (n : Nat)
  | sizeMul (ty : TyRef) (elems : ElemsTok)
deriving DecidableEq

/-- Generated code fragments.  Each constructor corresponds to one
`quote!` template of the source:

* `primReadLe ty`      -- `<ty as ::structurs::PrimitiveRead>::read_le(reader)?`  (line 236)
* `primReadBe ty`      -- `read_be` (line 237)
* `primReadNe ty`      -- `read_ne` (line 238)
* `readNormal ty`      -- `<ty as ::structurs::Read>::read(reader)?` (line 239)
* `primWriteLe ty f`   -- `<ty as ::structurs::PrimitiveWrite>::write_le(&self.f, writer)?` (line 243)
* `primWriteBe ty f`   -- `write_be` (line 244)
* `primWriteNe ty f`   -- `write_ne` (line 245)
* `writeNormal ty f`   -- `<ty as ::structurs::Write>::write(&self.f, writer)?` (line 246)
* `defaultOf ty`       -- `<ty as ::std::default::Default>::default()` (line 150)
* `arrayLit es`        -- `[ e0, e1, ... ]` (line 280)
* `constLoop ty c b`   -- the block of lines 283-289: a fresh array
  `[ty; c]` initialized to `[0; c]`, then `for i in 0..c` storing the
  result of `b` at index `i`, finally returning the array
* `padReadBlock n v`   -- the read-padding block (lines 161-164 and
  174-177): a `[0u8; n]` buffer filled with `reader.read_exact(..)?`,
  then the value `v`
* `writeAllZeros n`    -- `writer.write_all(&[0u8; n])` (lines 167-169
  and 180-182); note the absence of a `?` on this statement. -/
inductive Gen where
  | primReadLe (ty : RType)
  | primReadBe (ty : RType)
  | primReadNe (ty : RType)
  | readNormal (ty : RType)
  | primWriteLe (ty : RType) (field : String)
  | primWriteBe (ty : RType) (field : String)
  | primWriteNe (ty : RType) (field : String)
  | writeNormal (ty : RType) (field : String)
  | defaultOf (ty : RType)
  | arrayLit (es : List Gen)
  | constLoop (elemTy : RType) (len : String) (body : Gen)
  | padReadBlock (count : CountExpr) (val : Gen)
  | writeAllZeros (count : CountExpr)

/-- Discriminator: is a generated fragment an array literal
`[ e0, e1, ... ]`? -/
def Gen.isArrayLit : Gen → Bool
  | Gen.arrayLit _ => true
  | _ => false

/-- Model of `get_func` (source lines 227-249): the element procedure
for one element of `ty` under the resolved byte order, for the read or
the write direction.  In the write direction the generated call always
passes `&self.field` -- the entire field value -- to the element type's
write routine. -/
def get_func (ty : RType) (endian : Endian) (fieldName : String) (read : Bool) : Gen :=
  if read then
    match endian with
    | Endian.little => Gen.primReadLe ty
    | Endian.big => Gen.primReadBe ty
    | Endian.native => Gen.primReadNe ty
    | Endian.normal => Gen.readNormal ty
  else
    match endian with
    | Endian.little => Gen.primWriteLe ty fieldName
    | Endian.big => Gen.primWriteBe ty fieldName
    | Endian.native => Gen.primWriteNe ty fieldName
    | Endian.normal => Gen.writeNormal ty fieldName

/-- Model of `get_body` (source lines 271-291): a literal length `n`
replicates the element token `n` times -- spliced bare when the
collected vector has exactly one element, otherwise as an array literal
-- while a symbolic length produces the generated `for` loop. -/
def get_body (token : Gen) (elem_ty : RType) (ty_length : ArrayLength) : Gen :=
  match ty_length with
  | ArrayLength.int size =>
    let tokens := List.replicate size token
    if tokens.length = 1 then token else Gen.arrayLit tokens
  | ArrayLength.const expr => Gen.constLoop elem_ty expr token

/-- One named field of the input struct, as `derive_macro` sees it. -/
structure Field where
  name : String
  ty : RType
  attrs : List Attr

/-- Model of the per-field closure of `derive_macro` (source lines
134-195): resolve the element type and repeat count, parse the
attributes, build the element procedure and its repeat expansion, and
substitute the padding templates when a padding attribute is present.
For `Padding::Normal` in the write direction the filler length uses
`TyRef.dollarElemTy`, because the source's line 168 writes `$elem_ty`
(emitted verbatim by `quote!`) where the read direction's line 162
writes the interpolation `#elem_ty`. -/
def fieldBody (f : Field) (read : Bool) : Except String Gen :=
  let ea := match array_type f.ty with
    | some p => p
    | none => (f.ty, ArrayLength.int 1)
  match Attributes.new f.attrs with
  | Except.error e => Except.error e
  | Except.ok attrs =>
    let elem_ty := ea.1
    let elements := ea.2
    let func_token := get_func elem_ty attrs.endian f.name read
    let func_body := get_body func_token elem_ty elements
    let default_func_body := get_body (Gen.defaultOf elem_ty) elem_ty elements
    Except.ok
      (match attrs.padding with
       | some Padding.normal =>
         let elements_token := match elements with
           | ArrayLength.int n => ElemsTok.lit n
           | ArrayLength.const c => ElemsTok.constE c
         if read then
           Gen.padReadBlock (CountExpr.sizeMul (TyRef.spliced elem_ty) elements_token)
             default_func_body
         else
           Gen.writeAllZeros (CountExpr.sizeMul TyRef.dollarElemTy elements_token)
       | some (Padding.bytes n) =>
         if read then Gen.padReadBlock (CountExpr.lit n) default_func_body
         else Gen.writeAllZeros (CountExpr.lit n)
       | none => func_body)

/-- The input struct: a name and an ordered list of named fields. -/
structure Record where
  name : String
  fields : List Field

/-- The field bodies of the generated `Read` impl (source lines
197-209), one `name: body` pair per declared field, in declared order; a
generation-time panic on any field aborts the whole derive. -/
def deriveReadFields : List Field → Except String (List (String × Gen))
  | [] => Except.ok []
  | f :: fs =>
    match fieldBody f true with
    | Except.error e => Except.error e
    | Except.ok g =>
      match deriveReadFields fs with
      | Except.error e => Except.error e
      | Except.ok gs => Except.ok ((f.name, g) :: gs)

/-- The statements of the generated `Write` impl (source lines 210-221),
in declared field order. -/
def deriveWriteFields : List Field → Except String (List Gen)
  | [] => Except.ok []
  | f :: fs =>
    match fieldBody f false with
    | Except.error e => Except.error e
    | Except.ok g =>
      match deriveWriteFields fs with
      | Except.error e => Except.error e
      | Except.ok gs => Except.ok (g :: gs)

/-- The generated `Read::read` body for a record. -/
def deriveRead (r : Record) : Except String (List (String × Gen)) :=
  deriveReadFields r.fields

/-- The generated `Write::write` body for a record. -/
def deriveWrite (r : Record) : Except String (List Gen) :=
  deriveWriteFields r.fields

/-- Modelled from the spec: `::std::mem::size_of` for the types the
derive can mention -- a primitive type carries its byte size, an array
type occupies element size times length.  `env` resolves symbolic
constant-expression lengths to their values. -/
def sizeOfE (env : String → Nat) : RType → Nat
  | RType.prim _ s => s
  | RType.array e (LenExpr.litInt n) => sizeOfE env e * n
  | RType.array e (LenExpr.constE c) => sizeOfE env e * env c

/-- Value of an `elements_token` under a constant environment. -/
def evalElems (env : String → Nat) : ElemsTok → Nat
  | ElemsTok.lit n => n
  | ElemsTok.constE c => env c

/-- Byte count of a generated filler buffer.  A `TyRef.dollarElemTy`
occurrence cannot be evaluated: the generated code contains the literal
tokens `$elem_ty` where a type is expected, so that code is rejected by
the Rust compiler; the evaluator reports this as an error. -/
def evalCount (env : String → Nat) : CountExpr → Except String Nat
  | CountExpr.lit n => Except.ok n
  | CountExpr.sizeMul (TyRef.spliced t) e => Except.ok (sizeOfE env t * evalElems env e)
  | CountExpr.sizeMul TyRef.dollarElemTy _ =>
    Except.error "unresolved type $elem_ty in generated code"

/-- Modelled from the spec: little-endian interpretation of a byte list
(least significant byte first), the decoding half of the primitive codec
contract of the `structurs` core crate, which is not under `src/`. -/
def leVal : List Nat → Nat
  | [] => 0
  | b :: bs => b % 256 + 256 * leVal bs

/-- Modelled from the spec: the `s` little-endian bytes of a value. -/
def leBytes : Nat → Nat → List Nat
  | 0, _ => []
  | s + 1, v => v % 256 :: leBytes s (v / 256)

/-- Modelled from the spec: big-endian interpretation of a byte list. -/
def beVal (bs : List Nat) : Nat := leVal bs.reverse

/-- Modelled from the spec: the `s` big-endian bytes of a value. -/
def beBytes (s v : Nat) : List Nat := (leBytes s v).reverse

/-- Modelled from the spec: taking `n` bytes from the input stream, the
shared failure behavior of the underlying reads (`read_exact` and the
primitive decoders): if fewer than `n` bytes are available the read
fails, otherwise the `n` bytes are consumed. -/
def readBytes (n : Nat) (bs : List Nat) : Except String (List Nat × List Nat) :=
  if n ≤ bs.length then Except.ok (bs.take n, bs.drop n)
  else Except.error "failed to fill whole buffer"

/-- Modelled from the spec: the encoding half of the primitive codec
contract (`write_le`, `write_be`, `write_ne`), plus the composite
`structurs::Write` impl of the core crate for a primitive leaf type.
Native byte order is modelled as little-endian -- the claims under
verification are independent of the platform's choice -- and the
composite contract for a primitive leaf delegates to the native order. -/
def encodePrim : Endian → Nat → Nat → List Nat
  | Endian.little, s, v => leBytes s v
  | Endian.big, s, v => beBytes s v
  | Endian.native, s, v => leBytes s v
  | Endian.normal, s, v => leBytes s v

/-- Modelled from the spec: the decoding half of the primitive codec
contract (`read_le`, `read_be`, `read_ne`) and the composite
`structurs::Read` impl for a primitive leaf type, symmetric to
`encodePrim`. -/
def decodePrim (e : Endian) (s : Nat) (bs : List Nat) : Except String (Nat × List Nat) :=
  match readBytes s bs with
  | Except.error err => Except.error err
  | Except.ok (chunk, rest) =>
    Except.ok
      ((match e with
        | Endian.little => leVal chunk
        | Endian.big => beVal chunk
        | Endian.native => leVal chunk
        | Endian.normal => leVal chunk), rest)

/-- Runtime values of the generated code: a primitive value, an array
value, or the unit value of a `?`-discharged write call. -/
inductive Value where
  | nat (n : Nat)
  | arr (vs : List Value)
  | unit

/-- Modelled from the spec: the zero/default value of a type --
`Default::default()` for the integer primitives is zero and for arrays
is elementwise default. -/
def zeroValue (env : String → Nat) : RType → Value
  | RType.prim _ _ => Value.nat 0
  | RType.array e (LenExpr.litInt n) => Value.arr (List.replicate n (zeroValue env e))
  | RType.array e (LenExpr.constE c) => Value.arr (List.replicate (env c) (zeroValue env e))

/-- Modelled from the spec: the output stream handed to the generated
write procedure.  `out` is the byte sequence written so far; `budget`
limits how many further bytes the stream accepts (`none` for an
unbounded stream), giving concrete writers whose `write_all` fails. -/
structure Writer where
  budget : Option Nat
  out : List Nat
deriving DecidableEq

/-- Modelled from the spec: `write_all` on the stream -- appends the
bytes, or fails (writing nothing, in this model) when the stream's
remaining budget is exceeded. -/
def Writer.writeAll (w : Writer) (bs : List Nat) : Except String Writer :=
  match w.budget with
  | none => Except.ok { w with out := w.out ++ bs }
  | some b =>
    if bs.length ≤ b then Except.ok { budget := some (b - bs.length), out := w.out ++ bs }
    else Except.error "failed to write whole buffer"

/-- Lift a decoded primitive to a `Value` result. -/
def mapVal : Except String (Nat × List Nat) → Except String (Value × List Nat)
  | Except.error e => Except.error e
  | Except.ok (n, bs) => Except.ok (Value.nat n, bs)

/-- One generated write call `<ty as ...>::write_xx(value, writer)?`.
The codec contract accepts exactly a value of the primitive type: a call
whose argument is an array value models generated code that passes a
whole array field to the element type's write routine, which the Rust
type checker rejects; the evaluator reports it as an error. -/
def writePrim (env : String → Nat) (e : Endian) (ty : RType) (v : Value) (w : Writer) :
    Except String (Value × Writer) :=
  match v with
  | Value.nat n =>
    (match w.writeAll (encodePrim e (sizeOfE env ty) n) with
     | Except.error err => Except.error err
     | Except.ok w1 => Except.ok (Value.unit, w1))
  | _ => Except.error "type mismatch: primitive write applied to a non-primitive value"

mutual

/-- Evaluation of a generated read expression against the remaining
input bytes.  Each arm follows the Rust meaning of the corresponding
`quote!` template; the `?` of the read calls propagates the first
failure. -/
def interpRead (env : String → Nat) : Gen → List Nat → Except String (Value × List Nat)
  | Gen.primReadLe ty, bs => mapVal (decodePrim Endian.little (sizeOfE env ty) bs)
  | Gen.primReadBe ty, bs => mapVal (decodePrim Endian.big (sizeOfE env ty) bs)
  | Gen.primReadNe ty, bs => mapVal (decodePrim Endian.native (sizeOfE env ty) bs)
  | Gen.readNormal ty, bs => mapVal (decodePrim Endian.normal (sizeOfE env ty) bs)
  | Gen.defaultOf ty, bs => Except.ok (zeroValue env ty, bs)
  | Gen.arrayLit es, bs =>
    (match interpReadList env es bs with
     | Except.error e => Except.error e
     | Except.ok (vs, rest) => Except.ok (Value.arr vs, rest))
  | Gen.constLoop _ len body, bs =>
    (match interpReadLoop env body (env len) 0 (List.replicate (env len) (Value.nat 0)) bs with
     | Except.error e => Except.error e
     | Except.ok (slots, rest) => Except.ok (Value.arr slots, rest))
  | Gen.padReadBlock count inner, bs =>
    (match evalCount env count with
     | Except.error e => Except.error e
     | Except.ok c =>
       match readBytes c bs with
       | Except.error e => Except.error e
       | Except.ok (_, rest) => interpRead env inner rest)
  | Gen.primWriteLe _ _, _ => Except.error "write statement in read position"
  | Gen.primWriteBe _ _, _ => Except.error "write statement in read position"
  | Gen.primWriteNe _ _, _ => Except.error "write statement in read position"
  | Gen.writeNormal _ _, _ => Except.error "write statement in read position"
  | Gen.writeAllZeros _, _ => Except.error "write statement in read position"

/-- Left-to-right evaluation of the element expressions of a generated
array literal. -/
def interpReadList (env : String → Nat) : List Gen → List Nat → Except String (List Value × List Nat)
  | [], bs => Except.ok ([], bs)
  | g :: gs, bs =>
    match interpRead env g bs with
    | Except.error e => Except.error e
    | Except.ok (v, bs1) =>
      match interpReadList env gs bs1 with
      | Except.error e => Except.error e
      | Except.ok (vs, bs2) => Except.ok (v :: vs, bs2)

/-- The generated `for i in 0..LEN` loop in the read direction: `fuel`
iterations remain, `i` is the next index, `slots` the array being
filled. -/
def interpReadLoop (env : String → Nat) (body : Gen) :
    Nat → Nat → List Value → List Nat → Except String (List Value × List Nat)
  | 0, _, slots, bs => Except.ok (slots, bs)
  | fuel + 1, i, slots, bs =>
    match interpRead env body bs with
    | Except.error e => Except.error e
    | Except.ok (v, bs1) => interpReadLoop env body fuel (i + 1) (slots.set i v) bs1

end

mutual

/-- Evaluation of a generated write statement.  `self` maps field names
to the record instance's field values.  The padding statement
`writer.write_all(&[0u8; N])` is generated without a `?` (source lines
167-169 and 180-182), so its `Result` is discarded: a failing filler
write leaves the writer unchanged and evaluation continues. -/
def interpWrite (env : String → Nat) (self : String → Value) : Gen → Writer → Except String (Value × Writer)
  | Gen.primWriteLe ty fieldName, w => writePrim env Endian.little ty (self fieldName) w
  | Gen.primWriteBe ty fieldName, w => writePrim env Endian.big ty (self fieldName) w
  | Gen.primWriteNe ty fieldName, w => writePrim env Endian.native ty (self fieldName) w
  | Gen.writeNormal ty fieldName, w => writePrim env Endian.normal ty (self fieldName) w
  | Gen.defaultOf ty, w => Except.ok (zeroValue env ty, w)
  | Gen.arrayLit es, w =>
    (match interpWriteList env self es w with
     | Except.error e => Except.error e
     | Except.ok (vs, w1) => Except.ok (Value.arr vs, w1))
  | Gen.constLoop _ len body, w =>
    (match interpWriteLoop env self body (env len) 0 (List.replicate (env len) (Value.nat 0)) w with
     | Except.error e => Except.error e
     | Except.ok (slots, w1) => Except.ok (Value.arr slots, w1))
  | Gen.writeAllZeros count, w =>
    (match evalCount env count with
     | Except.error e => Except.error e
     | Except.ok c =>
       match w.writeAll (List.replicate c 0) with
       | Except.error _ => Except.ok (Value.unit, w)
       | Except.ok w1 => Except.ok (Value.unit, w1))
  | Gen.primReadLe _, _ => Except.error "read expression in write position"
  | Gen.primReadBe _, _ => Except.error "read expression in write position"
  | Gen.primReadNe _, _ => Except.error "read expression in write position"
  | Gen.readNormal _, _ => Except.error "read expression in write position"
  | Gen.padReadBlock _ _, _ => Except.error "read expression in write position"

/-- Left-to-right evaluation of the statements of a generated array
literal in the write direction. -/
def interpWriteList (env : String → Nat) (self : String → Value) :
    List Gen → Writer → Except String (List Value × Writer)
  | [], w => Except.ok ([], w)
  | g :: gs, w =>
    match interpWrite env self g w with
    | Except.error e => Except.error e
    | Except.ok (v, w1) =>
      match interpWriteList env self gs w1 with
      | Except.error e => Except.error e
      | Except.ok (vs, w2) => Except.ok (v :: vs, w2)

/-- The generated `for` loop in the write direction. -/
def interpWriteLoop (env : String → Nat) (self : String → Value) (body : Gen) :
    Nat → Nat → List Value → Writer → Except String (List Value × Writer)
  | 0, _, slots, w => Except.ok (slots, w)
  | fuel + 1, i, slots, w =>
    match interpWrite env self body w with
    | Except.error e => Except.error e
    | Except.ok (v, w1) => interpWriteLoop env self body fuel (i + 1) (slots.set i v) w1

end

/-- The generated `Read::read` body: `Ok(Self { f1: b1, f2: b2, .. })`
evaluates the field bodies in declared order, the `?` of each body
short-circuiting on the first failure; on success it returns the named
field values and the unconsumed input. -/
def readRecord (env : String → Nat) :
    List (String × Gen) → List Nat → Except String (List (String × Value) × List Nat)
  | [], bs => Except.ok ([], bs)
  | (nm, g) :: fs, bs =>
    match interpRead env g bs with
    | Except.error e => Except.error e
    | Except.ok (v, bs1) =>
      match readRecord env fs bs1 with
      | Except.error e => Except.error e
      | Except.ok (vs, bs2) => Except.ok ((nm, v) :: vs, bs2)

/-- The generated `Write::write` body: the field statements run in
declared order, then `Ok(())`; the resulting writer state is returned. -/
def writeRecord (env : String → Nat) (self : String → Value) :
    List Gen → Writer → Except String Writer
  | [], w => Except.ok w
  | g :: gs, w =>
    match interpWrite env self g w with
    | Except.error e => Except.error e
    | Except.ok (_, w1) => writeRecord env self gs w1

/-- Sequential evaluation of one read expression `n` times, collecting
the results in order: the reference meaning of an `n`-fold repeat
expansion. -/
def interpSeq (env : String → Nat) (body : Gen) : Nat → List Nat → Except String (List Value × List Nat)
  | 0, bs => Except.ok ([], bs)
  | n + 1, bs =>
    match interpRead env body bs with
    | Except.error e => Except.error e
    | Except.ok (v, bs1) =>
      match interpSeq env body n bs1 with
      | Except.error e => Except.error e
      | Except.ok (vs, bs2) => Except.ok (v :: vs, bs2)

/-- Consecutive in-place updates: store the values `vs` at indices
`i, i+1, ...` of `slots`. -/
def setSeq (slots : List Value) (i : Nat) : List Value → List Value
  | [] => slots
  | v :: vs => setSeq (slots.set i v) (i + 1) vs

/-- Byte-order directive denoted by one path segment, if any. -/
def segEndian (seg : String) : Option Endian :=
  if seg = "le" then some Endian.little
  else if seg = "be" then some Endian.big
  else if seg = "ne" then some Endian.native
  else none

/-- Left fold of byte-order directives: each recognised directive
overwrites the accumulated choice. -/
def endianFoldList (e : Endian) : List String → Endian
  | [] => e
  | s :: rest => endianFoldList ((segEndian s).getD e) rest

/-- All path segments of a field's attributes, in scanning order. -/
def allSegments : List Attr → List String
  | [] => []
  | attr :: rest => attr.pathSegments ++ allSegments rest

/-- Modelled from the spec: the byte-order resolution rule as the spec
states it -- scanning the attached directives, the last-seen among
little/big/native wins, and the absence of any such directive yields the
default byte order. -/
def specLastEndian (attrs : List Attr) : Endian :=
  (((allSegments attrs).filterMap segEndian).getLast?).getD Endian.normal

/-- The element type and repeat count the macro resolves for a field's
type (source lines 139-142). -/
def elemAndShape (t : RType) : RType × ArrayLength :=
  match array_type t with
  | some p => p
  | none => (t, ArrayLength.int 1)

/-- Repeat count of a shape under a constant environment. -/
def repeatCount (env : String → Nat) : ArrayLength → Nat
  | ArrayLength.int n => n
  | ArrayLength.const c => env c

/-- The filler byte count the spec assigns to a padding field: element
size times repeat count for `Auto`, the stated count for `Explicit`. -/
def padCount (env : String → Nat) (t : RType) : Padding → Nat
  | Padding.bytes n => n
  | Padding.normal => sizeOfE env (elemAndShape t).1 * repeatCount env (elemAndShape t).2

/-- Field shapes other than a literal array of length exactly one (the
shape on which the length-1 expansion collapses to a bare element
expression). -/
def ShapeNotOne : RType → Prop
  | RType.array _ (LenExpr.litInt 1) => False
  | _ => True

/-- A scalar, padding-free field whose value in the record instance is a
primitive in range for its byte width. -/
def ScalarNoPad (self : String → Value) (f : Field) : Prop :=
  ∃ a nm sz v,
    Attributes.new f.attrs = Except.ok a ∧
    a.padding = none ∧
    f.ty = RType.prim nm sz ∧
    self f.name = Value.nat v ∧
    v < 256 ^ sz

/-- An environment resolving every symbolic constant to zero, used by
closed evaluations that involve no symbolic lengths. -/
def env0 : String → Nat := fun _ => 0

/-- A record instance valuation assigning zero everywhere. -/
def self0 : String → Value := fun _ => Value.nat 0

/-- The two-byte unsigned integer type. -/
def u16T : RType := RType.prim "u16" 2

/-- The one-byte unsigned integer type. -/
def u8T : RType := RType.prim "u8" 1

/-- The attribute written as a bare little-endian directive. -/
def leAttr : Attr := { pathSegments := ["le"], tokens := [] }

/-- The attribute written as a bare big-endian directive. -/
def beAttr : Attr := { pathSegments := ["be"], tokens := [] }

/-- The attribute written as a bare automatic padding directive (no
parenthesized arguments). -/
def padAutoAttr : Attr := { pathSegments := ["pad"], tokens := [] }

/-- The attribute written as an explicit padding directive with the
parenthesized group containing the three expected tokens. -/
def padBytesAttr (n : Nat) : Attr :=
  { pathSegments := ["pad"],
    tokens := [TokenTree.group
      [TokenTree.ident "bytes", TokenTree.punct '=', TokenTree.literal (Lit.int n)]] }

/-- A little-endian two-element array field of two-byte integers. -/
def cArrField : Field :=
  { name := "f", ty := RType.array u16T (LenExpr.litInt 2), attrs := [leAttr] }

/-- A record with the single array field above. -/
def cArrRecord : Record := { name := "S", fields := [cArrField] }

/-- An instance valuation holding a two-element array everywhere. -/
def selfArr : String → Value := fun _ => Value.arr [Value.nat 1, Value.nat 2]

/-- The write statements the derive produces for `cArrRecord`. -/
def cStmts1 : List Gen :=
  [Gen.arrayLit [Gen.primWriteLe u16T "f", Gen.primWriteLe u16T "f"]]

/-- A scalar two-byte field carrying an automatic padding directive. -/
def cAutoPadField : Field := { name := "p", ty := u16T, attrs := [padAutoAttr] }

/-- An automatically padded field of type two-byte-integer array of
literal length one. -/
def cPad1Field : Field :=
  { name := "p", ty := RType.array u16T (LenExpr.litInt 1), attrs := [padAutoAttr] }

/-- The read body the derive produces for `cPad1Field`. -/
def cBody1 : Gen :=
  Gen.padReadBlock (CountExpr.sizeMul (TyRef.spliced u16T) (ElemsTok.lit 1))
    (Gen.defaultOf u16T)

/-- An automatically padded field of type one-byte-integer array of
literal length three. -/
def cPadArrField : Field :=
  { name := "p", ty := RType.array u8T (LenExpr.litInt 3), attrs := [padAutoAttr] }

/-- An explicitly padded one-byte field with a three-byte filler. -/
def cPadBytesField : Field := { name := "p", ty := u8T, attrs := [padBytesAttr 3] }

/-- A field of literal-length-one array type with no attributes. -/
def cOneField : Field :=
  { name := "g", ty := RType.array u16T (LenExpr.litInt 1), attrs := [] }

/-- A field whose array length is the symbolic constant `LEN`. -/
def cSymField : Field :=
  { name := "xs", ty := RType.array u8T (LenExpr.constE "LEN"), attrs := [] }

/-- An environment resolving the constant `LEN` to two. -/
def envLen2 : String → Nat := fun s => if s = "LEN" then 2 else 0

/-- A record with a little-endian two-byte field, an explicit three-byte
padding field, and a plain one-byte field. -/
def cR9 : Record :=
  { name := "T",
    fields :=
      [{ name := "a", ty := u16T, attrs := [leAttr] },
       { name := "p", ty := u8T, attrs := [padBytesAttr 3] },
       { name := "b", ty := u8T, attrs := [] }] }

/-- An instance of `cR9` with `a = 300` and `b = 5`. -/
def self9 : String → Value := fun nm =>
  if nm = "a" then Value.nat 300 else if nm = "b" then Value.nat 5 else Value.nat 0

/-- The write statements the derive produces for `cR9`. -/
def cStmts9 : List Gen :=
  [Gen.primWriteLe u16T "a", Gen.writeAllZeros (CountExpr.lit 3), Gen.writeNormal u8T "b"]

/-- A record with two scalar fields of opposite byte order. -/
def cR1 : Record :=
  { name := "U",
    fields :=
      [{ name := "a", ty := u16T, attrs := [leAttr] },
       { name := "b", ty := u16T, attrs := [beAttr] }] }

/-- An instance of `cR1` with `a = 300` and `b = 513`. -/
def selfR1 : String → Value := fun nm =>
  if nm = "a" then Value.nat 300 else if nm = "b" then Value.nat 513 else Value.nat 0

theorem leBytes_length (s : Nat) : ∀ v, (leBytes s v).length = s := by
  induction s with
  | zero => intro v; simp [leBytes]
  | succ n ih => intro v; simp [leBytes, ih]

theorem leVal_leBytes (s : Nat) : ∀ v, v < 256 ^ s → leVal (leBytes s v) = v := by
  induction s with
  | zero => intro v h; simp [pow_zero] at h; simp [leBytes, leVal, h]
  | succ n ih =>
    intro v h
    have hdiv : v / 256 < 256 ^ n := by
      rw [Nat.div_lt_iff_lt_mul (by norm_num : (0:Nat) < 256)]
      calc v < 256 ^ (n + 1) := h
        _ = 256 ^ n * 256 := by rw [pow_succ]
    simp [leBytes, leVal, ih (v / 256) hdiv]
    omega

theorem readBytes_len (n : Nat) (xs rest : List Nat) (h : xs.length = n) :
    readBytes n (xs ++ rest) = Except.ok (xs, rest) := by
  subst h; simp [readBytes]

theorem decodePrim_encodePrim (e : Endian) (s v : Nat) (rest : List Nat) (h : v < 256 ^ s) :
    decodePrim e s (encodePrim e s v ++ rest) = Except.ok (v, rest) := by
  have hl := leBytes_length s v
  cases e with
  | little =>
    simp only [decodePrim, encodePrim, readBytes_len s (leBytes s v) rest hl]
    simp [leVal_leBytes s v h]
  | big =>
    have hlb : (beBytes s v).length = s := by simp [beBytes, hl]
    simp only [decodePrim, encodePrim, readBytes_len s (beBytes s v) rest hlb]
    simp [beVal, beBytes, leVal_leBytes s v h]
  | native =>
    simp only [decodePrim, encodePrim, readBytes_len s (leBytes s v) rest hl]
    simp [leVal_leBytes s v h]
  | normal =>
    simp only [decodePrim, encodePrim, readBytes_len s (leBytes s v) rest hl]
    simp [leVal_leBytes s v h]

theorem interpSeq_length (env : String → Nat) (body : Gen) :
    ∀ n bs vs rest, interpSeq env body n bs = Except.ok (vs, rest) → vs.length = n := by
  intro n
  induction n with
  | zero => intro bs vs rest h; simp [interpSeq] at h; simp [h.1.symm]
  | succ k ih =>
    intro bs vs rest h
    simp only [interpSeq] at h
    cases h1 : interpRead env body bs with
    | error e => rw [h1] at h; cases h
    | ok p =>
      rw [h1] at h
      obtain ⟨v, bs1⟩ := p
      cases h2 : interpSeq env body k bs1 with
      | error e => simp [h2] at h
      | ok q =>
        obtain ⟨vs2, bs2⟩ := q
        simp [h2] at h
        have := ih bs1 vs2 bs2 h2
        simp [← h.1, this]


theorem setAppendLen (pre : List Value) (x p : Value) (ps : List Value) :
    (pre ++ p :: ps).set pre.length x = pre ++ x :: ps := by
  induction pre with
  | nil => simp
  | cons a l ih => simp [List.set, ih]

theorem setSeq_prefix :
    ∀ (vs pre post : List Value), post.length = vs.length →
      setSeq (pre ++ post) pre.length vs = pre ++ vs := by
  intro vs
  induction vs with
  | nil =>
    intro pre post h
    have : post = [] := List.eq_nil_of_length_eq_zero h
    subst this; simp [setSeq]
  | cons v vs ih =>
    intro pre post h
    cases post with
    | nil => simp at h
    | cons p ps =>
      simp only [setSeq, setAppendLen]
      have h2 : ps.length = vs.length := by simpa using h
      have := ih (pre ++ [v]) ps h2
      simpa using this

theorem setSeq_full (vs slots : List Value) (h : slots.length = vs.length) :
    setSeq slots 0 vs = vs := by
  have := setSeq_prefix vs [] slots h
  simpa using this

theorem interpReadLoop_eq_seq (env : String → Nat) (body : Gen) :
    ∀ fuel i slots bs,
      interpReadLoop env body fuel i slots bs =
        match interpSeq env body fuel bs with
        | Except.error e => Except.error e
        | Except.ok (vs, rest) => Except.ok (setSeq slots i vs, rest) := by
  intro fuel
  induction fuel with
  | zero => intro i slots bs; simp [interpReadLoop, interpSeq, setSeq]
  | succ k ih =>
    intro i slots bs
    simp only [interpReadLoop, interpSeq]
    cases h1 : interpRead env body bs with
    | error e => simp
    | ok p =>
      obtain ⟨v, bs1⟩ := p
      simp only [ih (i + 1) (slots.set i v) bs1]
      cases h2 : interpSeq env body k bs1 with
      | error e => simp
      | ok q => obtain ⟨vs, bs2⟩ := q; simp [setSeq]

theorem interpRead_constLoop (env : String → Nat) (t : RType) (c : String) (body : Gen)
    (bs : List Nat) :
    interpRead env (Gen.constLoop t c body) bs =
      match interpSeq env body (env c) bs with
      | Except.error e => Except.error e
      | Except.ok (vs, rest) => Except.ok (Value.arr vs, rest) := by
  simp only [interpRead, interpReadLoop_eq_seq]
  cases h : interpSeq env body (env c) bs with
  | error e => simp
  | ok p =>
    obtain ⟨vs, rest⟩ := p
    have hlen : vs.length = env c := interpSeq_length env body (env c) bs vs rest h
    simp [setSeq_full vs (List.replicate (env c) (Value.nat 0)) (by simp [hlen])]

theorem interpReadList_defaults (env : String → Nat) (e : RType) :
    ∀ n bs, interpReadList env (List.replicate n (Gen.defaultOf e)) bs =
      Except.ok (List.replicate n (zeroValue env e), bs) := by
  intro n
  induction n with
  | zero => intro bs; simp [interpReadList]
  | succ k ih => intro bs; simp [List.replicate, interpReadList, interpRead, ih]

theorem interpSeq_default (env : String → Nat) (e : RType) :
    ∀ n bs, interpSeq env (Gen.defaultOf e) n bs =
      Except.ok (List.replicate n (zeroValue env e), bs) := by
  intro n
  induction n with
  | zero => intro bs; simp [interpSeq]
  | succ k ih => intro bs; simp [interpSeq, interpRead, ih, List.replicate]

theorem interpRead_padBlock_ok (env : String → Nat) (count : CountExpr) (inner : Gen)
    (c : Nat) (bs : List Nat) (hc : evalCount env count = Except.ok c) (h : c ≤ bs.length) :
    interpRead env (Gen.padReadBlock count inner) bs = interpRead env inner (bs.drop c) := by
  simp [interpRead, hc, readBytes, h]

theorem interpRead_padBlock_err (env : String → Nat) (count : CountExpr) (inner : Gen)
    (c : Nat) (bs : List Nat) (hc : evalCount env count = Except.ok c) (h : bs.length < c) :
    interpRead env (Gen.padReadBlock count inner) bs =
      Except.error "failed to fill whole buffer" := by
  simp [interpRead, hc, readBytes, Nat.not_le.mpr h]

theorem interpRead_default_body_int (env : String → Nat) (e : RType) (n : Nat) (bs : List Nat)
    (hn : n ≠ 1) :
    interpRead env (get_body (Gen.defaultOf e) e (ArrayLength.int n)) bs =
      Except.ok (Value.arr (List.replicate n (zeroValue env e)), bs) := by
  simp [get_body, hn, interpRead, interpReadList_defaults]

theorem interpRead_default_body_one (env : String → Nat) (e : RType) (bs : List Nat) :
    interpRead env (get_body (Gen.defaultOf e) e (ArrayLength.int 1)) bs =
      Except.ok (zeroValue env e, bs) := by
  simp [get_body, interpRead]

theorem interpRead_default_body_const (env : String → Nat) (e : RType) (c : String)
    (bs : List Nat) :
    interpRead env (get_body (Gen.defaultOf e) e (ArrayLength.const c)) bs =
      Except.ok (Value.arr (List.replicate (env c) (zeroValue env e)), bs) := by
  simp [get_body, interpRead_constLoop, interpSeq_default]

/-- C2: for any record field carrying an `Explicit(n)` padding directive,
the generated write statement is `writer.write_all(&[0u8; n])`; on an
accepting stream it emits exactly `n` zero bytes, regardless of the
field's in-memory value (the statement never consults `self`). -/
theorem pad_explicit_write (f : Field) (a : Attributes) (n : Nat)
    (ha : Attributes.new f.attrs = Except.ok a)
    (hp : a.padding = some (Padding.bytes n)) :
    fieldBody f false = Except.ok (Gen.writeAllZeros (CountExpr.lit n)) ∧
    ∀ (env : String → Nat) (self : String → Value) (o : List Nat),
      interpWrite env self (Gen.writeAllZeros (CountExpr.lit n)) { budget := none, out := o } =
        Except.ok (Value.unit, { budget := none, out := o ++ List.replicate n 0 }) := by
  constructor
  · simp [fieldBody, ha, hp]
  · intro env self o
    simp [interpWrite, evalCount, Writer.writeAll]

/-- Witness for `pad_explicit_write`: the concrete field `p: u8` with the
directive group `(bytes = 3)`. -/
theorem pad_explicit_write_witness :
    fieldBody cPadBytesField false = Except.ok (Gen.writeAllZeros (CountExpr.lit 3)) ∧
    interpWrite env0 self0 (Gen.writeAllZeros (CountExpr.lit 3)) { budget := none, out := [] } =
      Except.ok (Value.unit, { budget := none, out := [0, 0, 0] }) := by
  obtain ⟨h1, h2⟩ := pad_explicit_write cPadBytesField
    { endian := Endian.normal, padding := some (Padding.bytes 3) } 3 rfl rfl
  refine ⟨h1, ?_⟩
  have := h2 env0 self0 []
  simpa using this

/-- C3: the write body generated for an `Auto` padding field is
`writer.write_all(&[0u8; ::std::mem::size_of::<$elem_ty>() * 1])` -- the
source's line 168 writes `$elem_ty` where the read direction's line 162
writes the interpolation `#elem_ty`, so the element type is never
substituted and the emitted tokens `$elem_ty` are not compilable Rust:
no `s * k` zero bytes are produced.  The first conjunct exhibits the
unresolved `$elem_ty` in the generated statement, the second evaluates
the generated code at the failing input, and the third shows the read
direction of the same field correctly splicing the element type. -/
theorem auto_pad_write_bug :
    fieldBody cAutoPadField false =
      Except.ok (Gen.writeAllZeros (CountExpr.sizeMul TyRef.dollarElemTy (ElemsTok.lit 1))) ∧
    interpWrite env0 self0
        (Gen.writeAllZeros (CountExpr.sizeMul TyRef.dollarElemTy (ElemsTok.lit 1)))
        { budget := none, out := [] } =
      Except.error "unresolved type $elem_ty in generated code" ∧
    fieldBody cAutoPadField true =
      Except.ok (Gen.padReadBlock (CountExpr.sizeMul (TyRef.spliced u16T) (ElemsTok.lit 1))
        (Gen.defaultOf u16T)) := by
  refine ⟨rfl, ?_, rfl⟩
  simp [interpWrite, evalCount]

/-- C5 counterexample: a padding directive whose attached tokens are
`= 3` (the attribute `pad = 3`, whose token stream does not start with a
parenthesized group) is silently treated as `Auto` instead of aborting
generation, contradicting the claim that every token shape other than
`(bytes = <integer>)` is a fatal error. -/
theorem pad_parse_silent_auto :
    Padding.parse [TokenTree.punct '=', TokenTree.literal (Lit.int 3)] =
      Except.ok Padding.normal := rfl

/-- C5 as amended: whenever the directive's tokens do begin with a
parenthesized group, parsing only succeeds if the group's content begins
with `bytes`, `=`, and an integer literal, yielding `Explicit`; every
malformed group content aborts generation (is never silently `Auto`). -/
theorem pad_parse_group_validated (g rest : List TokenTree) (p : Padding)
    (h : Padding.parse (TokenTree.group g :: rest) = Except.ok p) :
    ∃ n tail, g = TokenTree.ident "bytes" :: TokenTree.punct '=' ::
      TokenTree.literal (Lit.int n) :: tail ∧ p = Padding.bytes n := by
  cases g with
  | nil => simp [Padding.parse] at h
  | cons t g1 =>
    cases t with
    | ident i =>
      by_cases hi : i = "bytes"
      · subst hi
        cases g1 with
        | nil => simp [Padding.parse] at h
        | cons t2 g2 =>
          cases t2 with
          | punct p2 =>
            by_cases hp2 : p2 = '='
            · subst hp2
              cases g2 with
              | nil => simp [Padding.parse] at h
              | cons t3 g3 =>
                cases t3 with
                | literal l =>
                  cases l with
                  | int n =>
                    simp [Padding.parse] at h
                    exact ⟨n, g3, rfl, h.symm⟩
                  | other d => simp [Padding.parse] at h
                | ident s => simp [Padding.parse] at h
                | punct c => simp [Padding.parse] at h
                | group s => simp [Padding.parse] at h
            · simp [Padding.parse, hp2] at h
          | ident s => simp [Padding.parse] at h
          | literal l => simp [Padding.parse] at h
          | group s => simp [Padding.parse] at h
      · simp [Padding.parse, hi] at h
    | punct c => simp [Padding.parse] at h
    | literal l => simp [Padding.parse] at h
    | group s => simp [Padding.parse] at h

/-- Witness for `pad_parse_group_validated`: the group
`(bytes = 7 x)` parses to `Explicit(7)`. -/
theorem pad_parse_group_validated_witness :
    ∃ n tail, [TokenTree.ident "bytes", TokenTree.punct '=', TokenTree.literal (Lit.int 7),
      TokenTree.ident "x"] = TokenTree.ident "bytes" :: TokenTree.punct '=' ::
      TokenTree.literal (Lit.int n) :: tail ∧ Padding.bytes 7 = Padding.bytes n :=
  pad_parse_group_validated
    [TokenTree.ident "bytes", TokenTree.punct '=', TokenTree.literal (Lit.int 7),
      TokenTree.ident "x"] [] (Padding.bytes 7) rfl

/-- C10: a padding directive whose parenthesized group begins with
`bytes = <integer literal>` is accepted as `Explicit(<integer>)` even
when arbitrary extra tokens follow the literal inside the group, and
even when further token trees follow the group. -/
theorem pad_parse_trailing_tokens (n : Nat) (extra rest : List TokenTree) :
    Padding.parse (TokenTree.group (TokenTree.ident "bytes" :: TokenTree.punct '=' ::
      TokenTree.literal (Lit.int n) :: extra) :: rest) = Except.ok (Padding.bytes n) := by
  simp [Padding.parse]

/-- C7 counterexample: the field `g: [u16; 1]` (no attributes) gets the
bare element read `<u16 as Read>::read(reader)?` as its body -- not a
one-element array literal -- because the length-1 expansion is collapsed;
the claim's "for every n" fails at n = 1. -/
theorem unroll_one_counterexample :
    fieldBody cOneField true = Except.ok (Gen.readNormal u16T) ∧
    Gen.isArrayLit (Gen.readNormal u16T) = false := ⟨rfl, rfl⟩

/-- C7 as amended: for every literal length n other than 1, the repeat
expansion is an array literal of n copies of the element procedure in
position order; for n = 0 this is the empty array literal, which
consumes no input on read and contributes no bytes on write. -/
theorem unroll_literal_array (tok : Gen) (ty : RType) (n : Nat) (h : n ≠ 1) :
    get_body tok ty (ArrayLength.int n) = Gen.arrayLit (List.replicate n tok) ∧
    (∀ (env : String → Nat) (bs : List Nat),
      interpRead env (get_body tok ty (ArrayLength.int 0)) bs = Except.ok (Value.arr [], bs)) ∧
    (∀ (env : String → Nat) (self : String → Value) (w : Writer),
      interpWrite env self (get_body tok ty (ArrayLength.int 0)) w =
        Except.ok (Value.arr [], w)) := by
  refine ⟨?_, ?_, ?_⟩
  · simp [get_body, h]
  · intro env bs; simp [get_body, interpRead, interpReadList]
  · intro env self w; simp [get_body, interpWrite, interpWriteList]

/-- Witness for `unroll_literal_array` at n = 3 and at the zero-length
array. -/
theorem unroll_literal_array_witness :
    get_body (Gen.readNormal u8T) u8T (ArrayLength.int 3) =
      Gen.arrayLit [Gen.readNormal u8T, Gen.readNormal u8T, Gen.readNormal u8T] ∧
    interpRead env0 (get_body (Gen.readNormal u8T) u8T (ArrayLength.int 0)) [] =
      Except.ok (Value.arr [], []) ∧
    interpWrite env0 self0 (get_body (Gen.readNormal u8T) u8T (ArrayLength.int 0))
        { budget := none, out := [] } =
      Except.ok (Value.arr [], { budget := none, out := [] }) := by
  obtain ⟨h1, h2, h3⟩ := unroll_literal_array (Gen.readNormal u8T) u8T 3 (by decide)
  exact ⟨h1, h2 env0 [], h3 env0 self0 { budget := none, out := [] }⟩

/-- C4 counterexample: for the `Auto`-padded field `p: [u16; 1]`, the
generated read consumes the two filler bytes but populates the field
with the scalar element default `<u16 as Default>::default()` -- a bare
expression, because the length-1 expansion is collapsed -- and not with
the array type's elementwise zero value the claim requires. -/
theorem pad_read_one_counterexample :
    fieldBody cPad1Field true = Except.ok cBody1 ∧
    interpRead env0 cBody1 [9, 9] = Except.ok (Value.nat 0, []) ∧
    zeroValue env0 (RType.array u16T (LenExpr.litInt 1)) = Value.arr [Value.nat 0] ∧
    Value.nat 0 ≠ Value.arr [Value.nat 0] := by
  refine ⟨rfl, ?_, rfl, fun hcontra => Value.noConfusion hcontra⟩
  simp [cBody1, interpRead, evalCount, sizeOfE, u16T, evalElems, readBytes, zeroValue]

/-- C4 as amended: for every padding field (Auto or Explicit) whose
shape is not a literal array of length exactly 1, the generated read
consumes exactly the computed filler byte count (element size times
repeat count for Auto, the stated count for Explicit), discards those
bytes, populates the field with the zero/default value of the field's
type regardless of the consumed bytes' content, and fails with the
stream's fill error when fewer bytes are available. -/
theorem pad_read_consumes_and_zeroes (env : String → Nat) (f : Field) (a : Attributes)
    (pad : Padding) (ha : Attributes.new f.attrs = Except.ok a)
    (hp : a.padding = some pad) (hs : ShapeNotOne f.ty) :
    ∃ body, fieldBody f true = Except.ok body ∧
      (∀ bs : List Nat, padCount env f.ty pad ≤ bs.length →
        interpRead env body bs =
          Except.ok (zeroValue env f.ty, bs.drop (padCount env f.ty pad))) ∧
      (∀ bs : List Nat, bs.length < padCount env f.ty pad →
        interpRead env body bs = Except.error "failed to fill whole buffer") := by
  cases pad with
  | bytes n =>
    refine ⟨Gen.padReadBlock (CountExpr.lit n)
      (get_body (Gen.defaultOf (elemAndShape f.ty).1) (elemAndShape f.ty).1
        (elemAndShape f.ty).2), ?_, ?_, ?_⟩
    · cases ht : f.ty with
      | prim nm sz => simp [fieldBody, ha, hp, ht, array_type, elemAndShape]
      | array e len =>
        cases len with
        | litInt m => simp [fieldBody, ha, hp, ht, array_type, elemAndShape]
        | constE c => simp [fieldBody, ha, hp, ht, array_type, elemAndShape]
    · intro bs hlen
      rw [interpRead_padBlock_ok env (CountExpr.lit n) _ n bs rfl hlen]
      cases ht : f.ty with
      | prim nm sz =>
        simp [elemAndShape, array_type, ht, interpRead_default_body_one, zeroValue, padCount]
      | array e len =>
        cases len with
        | litInt m =>
          have hm : m ≠ 1 := by
            intro hm1; rw [ht, hm1] at hs; exact hs
          simp [elemAndShape, array_type, ht, interpRead_default_body_int env e m _ hm,
            zeroValue, padCount]
        | constE c =>
          simp [elemAndShape, array_type, ht, interpRead_default_body_const, zeroValue, padCount]
    · intro bs hlen
      exact interpRead_padBlock_err env (CountExpr.lit n) _ n bs rfl hlen
  | normal =>
    refine ⟨Gen.padReadBlock
      (CountExpr.sizeMul (TyRef.spliced (elemAndShape f.ty).1)
        (match (elemAndShape f.ty).2 with
         | ArrayLength.int m => ElemsTok.lit m
         | ArrayLength.const c => ElemsTok.constE c))
      (get_body (Gen.defaultOf (elemAndShape f.ty).1) (elemAndShape f.ty).1
        (elemAndShape f.ty).2), ?_, ?_, ?_⟩
    · cases ht : f.ty with
      | prim nm sz => simp [fieldBody, ha, hp, ht, array_type, elemAndShape]
      | array e len =>
        cases len with
        | litInt m => simp [fieldBody, ha, hp, ht, array_type, elemAndShape]
        | constE c => simp [fieldBody, ha, hp, ht, array_type, elemAndShape]
    · intro bs hlen
      have hc : evalCount env (CountExpr.sizeMul (TyRef.spliced (elemAndShape f.ty).1)
          (match (elemAndShape f.ty).2 with
           | ArrayLength.int m => ElemsTok.lit m
           | ArrayLength.const c => ElemsTok.constE c)) =
          Except.ok (padCount env f.ty Padding.normal) := by
        cases hsh : (elemAndShape f.ty).2 with
        | int m => simp [evalCount, evalElems, padCount, repeatCount, hsh]
        | const c => simp [evalCount, evalElems, padCount, repeatCount, hsh]
      rw [interpRead_padBlock_ok env _ _ (padCount env f.ty Padding.normal) bs hc hlen]
      cases ht : f.ty with
      | prim nm sz =>
        simp [elemAndShape, array_type, ht, interpRead_default_body_one, zeroValue]
      | array e len =>
        cases len with
        | litInt m =>
          have hm : m ≠ 1 := by
            intro hm1; rw [ht, hm1] at hs; exact hs
          simp [elemAndShape, array_type, ht, interpRead_default_body_int env e m _ hm,
            zeroValue]
        | constE c =>
          simp [elemAndShape, array_type, ht, interpRead_default_body_const, zeroValue]
    · intro bs hlen
      have hc : evalCount env (CountExpr.sizeMul (TyRef.spliced (elemAndShape f.ty).1)
          (match (elemAndShape f.ty).2 with
           | ArrayLength.int m => ElemsTok.lit m
           | ArrayLength.const c => ElemsTok.constE c)) =
          Except.ok (padCount env f.ty Padding.normal) := by
        cases hsh : (elemAndShape f.ty).2 with
        | int m => simp [evalCount, evalElems, padCount, repeatCount, hsh]
        | const c => simp [evalCount, evalElems, padCount, repeatCount, hsh]
      exact interpRead_padBlock_err env _ _ (padCount env f.ty Padding.normal) bs hc hlen

/-- Witness for `pad_read_consumes_and_zeroes`: the `Auto`-padded field
`p: [u8; 3]` consumes three non-zero filler bytes and yields the zero
array, and fails on a one-byte input. -/
theorem pad_read_consumes_and_zeroes_witness :
    ∃ body, fieldBody cPadArrField true = Except.ok body ∧
      interpRead env0 body [7, 7, 7, 9] =
        Except.ok (Value.arr [Value.nat 0, Value.nat 0, Value.nat 0], [9]) ∧
      interpRead env0 body [7] = Except.error "failed to fill whole buffer" := by
  obtain ⟨body, h1, h2, h3⟩ := pad_read_consumes_and_zeroes env0 cPadArrField
    { endian := Endian.normal, padding := some Padding.normal } Padding.normal rfl rfl
    (by constructor)
  refine ⟨body, h1, ?_, ?_⟩
  · have := h2 [7, 7, 7, 9] (by decide)
    simpa [padCount, elemAndShape, array_type, cPadArrField, sizeOfE, u8T, repeatCount,
      zeroValue, env0] using this
  · have := h3 [7] (by decide)
    exact this

/-- C8: for a field whose type is a fixed array with a symbolic
(non-literal) length, the synthesized read procedure is the generated
bounded loop `for i in 0..LEN` storing one element-procedure result per
index into a pre-sized zero-initialized array (`interpRead` evaluates
`Gen.constLoop` exactly that way); semantically it equals `env c`
sequential invocations of the element procedure collected in position
order.  The last conjunct checks that for a primitive element type the
`[0; LEN]` initializer is the element type's zero value. -/
theorem symbolic_array_loop (env : String → Nat) (f : Field) (a : Attributes)
    (elemT : RType) (c : String) (nm : String) (sz : Nat)
    (ha : Attributes.new f.attrs = Except.ok a) (hp : a.padding = none)
    (ht : f.ty = RType.array elemT (LenExpr.constE c)) (he : elemT = RType.prim nm sz) :
    fieldBody f true = Except.ok (Gen.constLoop elemT c (get_func elemT a.endian f.name true)) ∧
    (∀ bs : List Nat,
      interpRead env (Gen.constLoop elemT c (get_func elemT a.endian f.name true)) bs =
        match interpSeq env (get_func elemT a.endian f.name true) (env c) bs with
        | Except.error err => Except.error err
        | Except.ok (vs, rest) => Except.ok (Value.arr vs, rest)) ∧
    Value.nat 0 = zeroValue env elemT := by
  refine ⟨?_, ?_, ?_⟩
  · simp [fieldBody, ha, hp, ht, array_type, get_body]
  · intro bs; exact interpRead_constLoop env elemT c _ bs
  · simp [he, zeroValue]

/-- Witness for `symbolic_array_loop`: the field `xs: [u8; LEN]` with
`LEN = 2` reads two bytes in order into the array. -/
theorem symbolic_array_loop_witness :
    fieldBody cSymField true =
      Except.ok (Gen.constLoop u8T "LEN" (Gen.readNormal u8T)) ∧
    interpRead envLen2 (Gen.constLoop u8T "LEN" (Gen.readNormal u8T)) [3, 4, 9] =
      Except.ok (Value.arr [Value.nat 3, Value.nat 4], [9]) := by
  obtain ⟨h1, h2, _⟩ := symbolic_array_loop envLen2 cSymField
    { endian := Endian.normal, padding := none } u8T "LEN" "u8" 1 rfl rfl rfl rfl
  refine ⟨h1, ?_⟩
  refine (h2 [3, 4, 9]).trans ?_
  simp [interpSeq, interpRead, get_func, envLen2, decodePrim, readBytes, sizeOfE, u8T, leVal, mapVal]

/-- C9 counterexample: in the record `cR9` (fields `a`, then an
`Explicit(3)` padding field, then `b`), a stream accepting only three
bytes makes the padding `write_all` fail; because the generated padding
statement carries no `?`, the failure is discarded, the later field `b`
is still processed, and the write procedure reports overall success with
the bytes of `a` and `b` but no filler -- contradicting the claim that
the first failing field's error is returned immediately and no field
after the failure point is processed. -/
theorem pad_write_error_swallowed :
    deriveWrite cR9 = Except.ok cStmts9 ∧
    writeRecord env0 self9 cStmts9 { budget := some 3, out := [] } =
      Except.ok { budget := some 0, out := [44, 1, 5] } := by
  refine ⟨rfl, ?_⟩
  simp [writeRecord, cStmts9, interpWrite, writePrim, self9, encodePrim, leBytes, sizeOfE,
    u16T, u8T, Writer.writeAll, evalCount]

/-- C9 as amended: in both generated procedures the fields are processed
in exactly declared order and an error raised by a field's statement
short-circuits -- the fields after the failure point do not influence
the result.  (The padding write statements, whose `write_all` result is
discarded, never raise such an error; see the counterexample.) -/
theorem first_error_short_circuit (env : String → Nat) (self : String → Value) :
    (∀ (pre : List (String × Gen)) (nm : String) (g : Gen) (post : List (String × Gen))
       (bs : List Nat) (vs : List (String × Value)) (bs1 : List Nat) (err : String),
       readRecord env pre bs = Except.ok (vs, bs1) →
       interpRead env g bs1 = Except.error err →
       readRecord env (pre ++ (nm, g) :: post) bs = Except.error err) ∧
    (∀ (pre : List Gen) (g : Gen) (post : List Gen) (w w1 : Writer) (err : String),
       writeRecord env self pre w = Except.ok w1 →
       interpWrite env self g w1 = Except.error err →
       writeRecord env self (pre ++ g :: post) w = Except.error err) := by
  constructor
  · intro pre
    induction pre with
    | nil =>
      intro nm g post bs vs bs1 err h1 h2
      simp [readRecord] at h1
      obtain ⟨hv, hb⟩ := h1
      subst hb
      simp [readRecord, h2]
    | cons hd tl ih =>
      intro nm g post bs vs bs1 err h1 h2
      obtain ⟨nm0, g0⟩ := hd
      simp only [readRecord] at h1
      cases hr : interpRead env g0 bs with
      | error e => rw [hr] at h1; cases h1
      | ok p =>
        obtain ⟨v0, t0⟩ := p
        rw [hr] at h1
        cases hrest : readRecord env tl t0 with
        | error e => simp [hrest] at h1
        | ok q =>
          obtain ⟨vs0, bs0⟩ := q
          simp [hrest] at h1
          have hb : bs0 = bs1 := h1.2
          subst hb
          have hih := ih nm g post t0 vs0 bs0 err hrest h2
          simp [List.cons_append, readRecord, hr, hih]
  · intro pre
    induction pre with
    | nil =>
      intro g post w w1 err h1 h2
      simp [writeRecord] at h1
      subst h1
      simp [writeRecord, h2]
    | cons g0 tl ih =>
      intro g post w w1 err h1 h2
      simp only [writeRecord] at h1
      cases hw : interpWrite env self g0 w with
      | error e => rw [hw] at h1; cases h1
      | ok p =>
        obtain ⟨v0, wmid⟩ := p
        rw [hw] at h1
        simp only [List.cons_append, writeRecord, hw]
        exact ih g post wmid w1 err h1 h2

/-- Witness for `first_error_short_circuit`: reading the three-field
record body where the second field's read fails on an exhausted stream
returns that error, untouched by the third field. -/
theorem first_error_short_circuit_witness :
    readRecord env0
      [("a", Gen.readNormal u8T), ("b", Gen.readNormal u16T), ("z", Gen.readNormal u8T)]
      [5] = Except.error "failed to fill whole buffer" ∧
    writeRecord env0 selfR1
      [Gen.primWriteLe u16T "a", Gen.primWriteBe u16T "b"]
      { budget := some 2, out := [] } = Except.error "failed to write whole buffer" := by
  constructor
  · refine (first_error_short_circuit env0 self0).1 [("a", Gen.readNormal u8T)] "b"
      (Gen.readNormal u16T) [("z", Gen.readNormal u8T)] [5] [("a", Value.nat 5)] [] _ ?_ ?_
    · simp [readRecord, interpRead, decodePrim, readBytes, sizeOfE, u8T, leVal, mapVal, env0]
    · simp [interpRead, decodePrim, readBytes, sizeOfE, u16T, mapVal, env0]
  · refine (first_error_short_circuit env0 selfR1).2 [Gen.primWriteLe u16T "a"]
      (Gen.primWriteBe u16T "b") [] { budget := some 2, out := [] }
      { budget := some 0, out := [44, 1] } _ ?_ ?_
    · simp [writeRecord, interpWrite, writePrim, selfR1, encodePrim, leBytes, sizeOfE, u16T,
        Writer.writeAll, env0]
    · simp [interpWrite, writePrim, selfR1, encodePrim, beBytes, leBytes, sizeOfE, u16T,
        Writer.writeAll, env0]

theorem applySegment_endian (a : Attributes) (attr : Attr) (seg : String) (a1 : Attributes)
    (h : applySegment a attr seg = Except.ok a1) :
    a1.endian = (segEndian seg).getD a.endian := by
  unfold applySegment at h
  unfold segEndian
  split_ifs at h ⊢
  · cases h; rfl
  · cases h; rfl
  · cases h; rfl
  · cases hp : Padding.parse attr.tokens with
    | error e => rw [hp] at h; cases h
    | ok p => rw [hp] at h; cases h; rfl
  · cases h; rfl

theorem applySegments_endian (attr : Attr) :
    ∀ (segs : List String) (a a1 : Attributes),
      applySegments a attr segs = Except.ok a1 →
      a1.endian = endianFoldList a.endian segs := by
  intro segs
  induction segs with
  | nil =>
    intro a a1 h
    simp [applySegments] at h
    subst h
    simp [endianFoldList]
  | cons s rest ih =>
    intro a a1 h
    simp only [applySegments] at h
    cases hs : applySegment a attr s with
    | error e => rw [hs] at h; cases h
    | ok a2 =>
      rw [hs] at h
      rw [ih a2 a1 h]
      simp only [endianFoldList]
      rw [applySegment_endian a attr s a2 hs]

theorem endianFoldList_append (l1 : List String) :
    ∀ (l2 : List String) (e : Endian),
      endianFoldList e (l1 ++ l2) = endianFoldList (endianFoldList e l1) l2 := by
  induction l1 with
  | nil => intro l2 e; simp [endianFoldList]
  | cons s rest ih => intro l2 e; simp [endianFoldList, ih]

theorem applyAttrs_endian :
    ∀ (attrs : List Attr) (a a1 : Attributes),
      applyAttrs a attrs = Except.ok a1 →
      a1.endian = endianFoldList a.endian (allSegments attrs) := by
  intro attrs
  induction attrs with
  | nil =>
    intro a a1 h
    simp [applyAttrs] at h
    subst h
    simp [allSegments, endianFoldList]
  | cons attr rest ih =>
    intro a a1 h
    simp only [applyAttrs] at h
    cases hs : applySegments a attr attr.pathSegments with
    | error e => rw [hs] at h; cases h
    | ok a2 =>
      rw [hs] at h
      rw [ih a2 a1 h]
      simp only [allSegments]
      rw [endianFoldList_append]
      rw [applySegments_endian attr attr.pathSegments a a2 hs]

theorem getLastSomeOfCons (y : Endian) (l2 : List Endian) :
    ∃ z, (y :: l2).getLast? = some z := by
  induction l2 generalizing y with
  | nil => exact ⟨y, rfl⟩
  | cons b l ih =>
    obtain ⟨z, hz⟩ := ih b
    exact ⟨z, by rw [List.getLast?_cons_cons]; exact hz⟩

theorem endianFoldList_getLast (l : List String) :
    ∀ e : Endian, endianFoldList e l = ((l.filterMap segEndian).getLast?).getD e := by
  induction l with
  | nil => intro e; simp [endianFoldList]
  | cons s rest ih =>
    intro e
    simp only [endianFoldList, List.filterMap_cons]
    cases hs : segEndian s with
    | none => simp [ih]
    | some x =>
      simp only [Option.getD_some]
      rw [ih x]
      cases hr : rest.filterMap segEndian with
      | nil => simp
      | cons y l2 =>
        obtain ⟨z, hz⟩ := getLastSomeOfCons y l2
        simp [List.getLast?_cons_cons, hz]

/-- C6: the byte-order resolved for a field equals the spec's rule --
scanning all attached directives in order, the last-seen among
little/big/native wins (later overwrites earlier, with no rejection of
multiples), and absence of any such directive yields the default byte
order that delegates to the value type's own contract. -/
theorem endian_last_wins (attrs : List Attr) (a : Attributes)
    (h : Attributes.new attrs = Except.ok a) :
    a.endian = specLastEndian attrs := by
  unfold Attributes.new at h
  rw [applyAttrs_endian attrs {} a h, endianFoldList_getLast]
  rfl

/-- Witness for `endian_last_wins`: a field annotated with a big-endian
and then a little-endian directive resolves to little-endian. -/
theorem endian_last_wins_witness :
    ({ endian := Endian.little, padding := none } : Attributes).endian =
      specLastEndian [beAttr, leAttr] :=
  endian_last_wins [beAttr, leAttr] { endian := Endian.little, padding := none } rfl

theorem scalar_field_codes (env : String → Nat) (self : String → Value) (f : Field)
    (h : ScalarNoPad self f) :
    ∃ gw gr enc,
      fieldBody f false = Except.ok gw ∧
      fieldBody f true = Except.ok gr ∧
      (∀ o : List Nat, interpWrite env self gw { budget := none, out := o } =
        Except.ok (Value.unit, { budget := none, out := o ++ enc })) ∧
      (∀ rest : List Nat, interpRead env gr (enc ++ rest) = Except.ok (self f.name, rest)) := by
  obtain ⟨a, nm, sz, v, ha, hp, ht, hv, hlt⟩ := h
  refine ⟨get_func (RType.prim nm sz) a.endian f.name false,
    get_func (RType.prim nm sz) a.endian f.name true,
    encodePrim a.endian sz v, ?_, ?_, ?_, ?_⟩
  · simp [fieldBody, ha, hp, ht, array_type, get_body]
  · simp [fieldBody, ha, hp, ht, array_type, get_body]
  · intro o
    cases a.endian <;>
      simp [get_func, interpWrite, writePrim, hv, encodePrim, sizeOfE, Writer.writeAll]
  · intro rest
    cases a.endian with
    | little =>
      simp [get_func, interpRead, sizeOfE,
        decodePrim_encodePrim Endian.little sz v rest hlt, mapVal, hv]
    | big =>
      simp [get_func, interpRead, sizeOfE,
        decodePrim_encodePrim Endian.big sz v rest hlt, mapVal, hv]
    | native =>
      simp [get_func, interpRead, sizeOfE,
        decodePrim_encodePrim Endian.native sz v rest hlt, mapVal, hv]
    | normal =>
      simp [get_func, interpRead, sizeOfE,
        decodePrim_encodePrim Endian.normal sz v rest hlt, mapVal, hv]

theorem roundtrip_fields (env : String → Nat) (self : String → Value) :
    ∀ fs : List Field, (∀ f ∈ fs, ScalarNoPad self f) →
      ∃ stmts bodies enc,
        deriveWriteFields fs = Except.ok stmts ∧
        deriveReadFields fs = Except.ok bodies ∧
        (∀ o : List Nat, writeRecord env self stmts { budget := none, out := o } =
          Except.ok { budget := none, out := o ++ enc }) ∧
        (∀ rest : List Nat, readRecord env bodies (enc ++ rest) =
          Except.ok (fs.map (fun f => (f.name, self f.name)), rest)) := by
  intro fs
  induction fs with
  | nil =>
    intro h
    exact ⟨[], [], [], rfl, rfl, fun o => by simp [writeRecord],
      fun rest => by simp [readRecord]⟩
  | cons f fs ih =>
    intro h
    obtain ⟨gw, gr, encf, hw, hr, hwrite, hread⟩ :=
      scalar_field_codes env self f (h f (by simp))
    obtain ⟨stmts, bodies, encr, h1, h2, h3, h4⟩ := ih (fun f2 hf2 => h f2 (by simp [hf2]))
    refine ⟨gw :: stmts, (f.name, gr) :: bodies, encf ++ encr, ?_, ?_, ?_, ?_⟩
    · simp [deriveWriteFields, hw, h1]
    · simp [deriveReadFields, hr, h2]
    · intro o
      simp only [writeRecord, hwrite o]
      rw [h3 (o ++ encf)]
      simp
    · intro rest
      have hassoc : encf ++ encr ++ rest = encf ++ (encr ++ rest) := by simp
      rw [hassoc]
      simp only [readRecord, hread (encr ++ rest)]
      rw [h4 rest]
      simp

/-- C1 as amended: for every record all of whose fields are scalar
(non-array), padding-free, and hold in-range primitive values, writing
the record to an accepting stream and reading the produced bytes back
reconstructs every field's value, under every byte order (little, big,
native, default) resolved per field.  (For fixed-array fields the
round-trip fails: see the counterexample, where the generated write
passes the whole array to the element writer.) -/
theorem read_write_roundtrip (env : String → Nat) (r : Record) (self : String → Value)
    (h : ∀ f ∈ r.fields, ScalarNoPad self f) :
    ∃ stmts bodies w,
      deriveWrite r = Except.ok stmts ∧
      deriveRead r = Except.ok bodies ∧
      writeRecord env self stmts { budget := none, out := [] } = Except.ok w ∧
      readRecord env bodies w.out =
        Except.ok (r.fields.map (fun f => (f.name, self f.name)), []) := by
  obtain ⟨stmts, bodies, enc, h1, h2, h3, h4⟩ := roundtrip_fields env self r.fields h
  refine ⟨stmts, bodies, { budget := none, out := [] ++ enc }, h1, h2, h3 [], ?_⟩
  have h5 := h4 []
  simpa using h5

/-- Witness for `read_write_roundtrip`: the two-field record `cR1`
(little-endian `a = 300`, big-endian `b = 513`) round-trips. -/
theorem read_write_roundtrip_witness :
    ∃ stmts bodies w,
      deriveWrite cR1 = Except.ok stmts ∧
      deriveRead cR1 = Except.ok bodies ∧
      writeRecord env0 selfR1 stmts { budget := none, out := [] } = Except.ok w ∧
      readRecord env0 bodies w.out =
        Except.ok ([("a", Value.nat 300), ("b", Value.nat 513)], []) := by
  have hyp : ∀ f ∈ cR1.fields, ScalarNoPad selfR1 f := by
    intro f hf
    simp [cR1] at hf
    rcases hf with h | h <;> subst h
    · exact ⟨{ endian := Endian.little, padding := none }, "u16", 2, 300, rfl, rfl, rfl, rfl,
        by norm_num⟩
    · exact ⟨{ endian := Endian.big, padding := none }, "u16", 2, 513, rfl, rfl, rfl, rfl,
        by norm_num⟩
  obtain ⟨stmts, bodies, w, h1, h2, h3, h4⟩ := read_write_roundtrip env0 cR1 selfR1 hyp
  exact ⟨stmts, bodies, w, h1, h2, h3, by simpa [cR1, selfR1] using h4⟩

/-- C1 counterexample: for the record with the single field
`f: [u16; 2]` under a little-endian directive, the generated write
statements instantiate the element writer twice but pass `&self.f` --
the entire array value -- to `<u16 as PrimitiveWrite>::write_le` each
time, so the write procedure fails (the generated code is ill-typed)
and `read(write(v))` cannot reconstruct `v`: the round-trip claim fails
for fixed-array shapes. -/
theorem array_write_counterexample :
    deriveWrite cArrRecord = Except.ok cStmts1 ∧
    writeRecord env0 selfArr cStmts1 { budget := none, out := [] } =
      Except.error "type mismatch: primitive write applied to a non-primitive value" := by
  refine ⟨rfl, ?_⟩
  simp [writeRecord, cStmts1, interpWrite, interpWriteList, writePrim, selfArr]

end Structurs
